import Mathlib

/-!
Shallow embedding of the GardePro media archiver
(`cmd/gardepro/gardepro.go`): destination-path construction from a
creation timestamp, target-directory checking, the copy/skip/conflict
placement policy, extension-based kind detection, and the MP4
epoch-1904 timestamp conversion.  Definitions follow the Go source;
`Spec`-prefixed definitions restate the specification's independent
characterisation for refinement theorems.
-/

namespace GardePro

/-! ### Decimal rendering (Go's `appendInt`, as used by `time.Format`) -/

/-- One decimal digit as a character. -/
def digitChar (n : Nat) : Char := Char.ofNat (48 + n)

/-- Fuel-driven digit extraction; fuel larger than `n` always
suffices, since `n / 10 < n` for `n ≥ 10`. -/
def decDigitsGo : Nat → Nat → List Char
  | 0, _ => []
  | f + 1, n =>
    if n < 10 then [digitChar n]
    else decDigitsGo f (n / 10) ++ [digitChar (n % 10)]

/-- Decimal digits of a natural number, most significant first
(Go prints integers in decimal the same way). -/
def decDigits (n : Nat) : List Char := decDigitsGo (n + 1) n

/-- Zero-pad a decimal rendering to width `w`, as Go's `appendInt`
does for the fixed-width verbs of `time.Format`. -/
def padNat (w n : Nat) : String :=
  let ds := decDigits n
  String.mk (List.replicate (w - ds.length) '0' ++ ds)

/-! ### Calendar data -/

/-- A wall-clock calendar timestamp (the program treats all times as
naive local time; see the comments at gardepro.go:130 and 150). -/
structure DateTime where
  year : Nat
  month : Nat
  day : Nat
  hour : Nat
  minute : Nat
  second : Nat
  deriving DecidableEq, Repr

/-- Gregorian leap-year rule (Go's `time` package uses the proleptic
Gregorian calendar). -/
def isLeap (y : Nat) : Bool :=
  (y % 4 == 0 && y % 100 != 0) || y % 400 == 0

/-- Lengths of the twelve months. -/
def monthLengths (leap : Bool) : List Nat :=
  [31, if leap then 29 else 28, 31, 30, 31, 30, 31, 31, 30, 31, 30, 31]

/-- Days in a calendar year. -/
def daysInYear (y : Nat) : Nat := if isLeap y then 366 else 365

/-- A valid calendar timestamp: the ranges Go's `time.Parse` accepts
for layout `"2006:01:02 15:04:05"` (4-digit year, month 1-12,
day within the month, 24-hour clock). -/
def ValidTime (t : DateTime) : Prop :=
  t.year ≤ 9999 ∧ 1 ≤ t.month ∧ t.month ≤ 12 ∧ 1 ≤ t.day ∧
    t.day ≤ (monthLengths (isLeap t.year)).getD (t.month - 1) 0 ∧
    t.hour ≤ 23 ∧ t.minute ≤ 59 ∧ t.second ≤ 59

instance (t : DateTime) : Decidable (ValidTime t) := by
  unfold ValidTime; infer_instance

/-! ### Go `time.Format` on the two layouts the program uses

The interpreter recognises exactly the reference-time chunks that occur
in `fileDateStubFmt` and `targetDirFmt`: `2006` (4-digit year), `01`
(2-digit month), `02` (2-digit day), `15` (2-digit 24h hour), `04`
(2-digit minute), `05` (2-digit second); every other character is
copied literally, as Go's `nextStdChunk` does. -/

def goFormatAux : List Char → DateTime → String
  | [], _ => ""
  | '2' :: '0' :: '0' :: '6' :: rest, t => padNat 4 t.year ++ goFormatAux rest t
  | '0' :: '1' :: rest, t => padNat 2 t.month ++ goFormatAux rest t
  | '0' :: '2' :: rest, t => padNat 2 t.day ++ goFormatAux rest t
  | '1' :: '5' :: rest, t => padNat 2 t.hour ++ goFormatAux rest t
  | '0' :: '4' :: rest, t => padNat 2 t.minute ++ goFormatAux rest t
  | '0' :: '5' :: rest, t => padNat 2 t.second ++ goFormatAux rest t
  | c :: rest, t => String.singleton c ++ goFormatAux rest t

/-- `when.Format(layout)` for the layouts used by the program. -/
def goFormat (layout : String) (t : DateTime) : String :=
  goFormatAux layout.data t

/-- gardepro.go:106 -/
def fileDateStubFmt : String := "/2006/01-02-15:04:05-"

/-- gardepro.go:107 -/
def targetDirFmt : String := "/2006"

/-! ### Path helpers (`path/filepath`, `strings`) -/

/-- Scan the reversed character list of a path, as Go's
`filepath.Ext` scans backward stopping at a path separator. -/
def extGo : List Char → List Char → String
  | [], _ => ""
  | '/' :: _, _ => ""
  | '.' :: _, acc => String.mk ('.' :: acc)
  | c :: rest, acc => extGo rest (c :: acc)

/-- `filepath.Ext`: the suffix of the last path element beginning at
its final dot, or `""` when there is none. -/
def filepathExt (p : String) : String := extGo p.data.reverse []

/-- ASCII lower-casing of one character (`strings.ToLower` restricted
to the ASCII range, which covers every extension the program tests). -/
def charLower (c : Char) : Char :=
  if 'A' ≤ c ∧ c ≤ 'Z' then Char.ofNat (c.toNat + 32) else c

/-- `strings.ToLower` on ASCII strings. -/
def lowerStr (s : String) : String := String.mk (s.data.map charLower)

/-- Take the last path element from a reversed character list,
skipping trailing separators first (helper for `filepathBase`). -/
def baseGo (rev : List Char) : String :=
  let trimmed := rev.dropWhile (· = '/')
  if trimmed = [] then "/"
  else String.mk (trimmed.takeWhile (· ≠ '/')).reverse

/-- `filepath.Base`: last element of the path after removing trailing
slashes; `"."` for the empty path, `"/"` for all-slash paths. -/
def filepathBase (p : String) : String :=
  if p = "" then "." else baseGo p.data.reverse

/-- `strings.HasSuffix`:
`len(s) >= len(suffix) && s[len(s)-len(suffix):] == suffix`. -/
def hasSuffix (s suf : String) : Bool :=
  decide (suf.data.length ≤ s.data.length) &&
    decide (s.data.drop (s.data.length - suf.data.length) = suf.data)

/-- `strings.TrimSuffix`: removes one copy of the suffix when present
(gardepro.go:94 applies it with suffix `"/"`). -/
def trimSuffix (s suf : String) : String :=
  if hasSuffix s suf then String.mk (s.data.take (s.data.length - suf.data.length))
  else s

/-! ### Destination-path construction (gardepro.go:132-133, 152-153) -/

/-- `targetDir`: `target + when.Format(targetDirFmt)`. -/
def computeTargetDir (root : String) (t : DateTime) : String :=
  root ++ goFormat targetDirFmt t

/-- `targetPath`: `target + when.Format(fileDateStubFmt) + filepath.Base(source)`;
here the basename is passed directly, as the spec's
`ComputeDestination(root, timestamp, sourceBasename)`. -/
def computeDestination (root : String) (t : DateTime) (base : String) : String :=
  root ++ goFormat fileDateStubFmt t ++ base

/-! ### Filesystem model

A flat association list from path to entry; the head of the list
shadows later bindings, so `FS.insert` is cons.  This models the only
state the program touches: whether a path holds a regular file (with
its byte content) or a directory. -/

/-- A filesystem entry: a regular file with its content, or a directory. -/
inductive FsEntry where
  | file (content : List Nat)
  | dir
  deriving DecidableEq, Repr

/-- The filesystem state. -/
abbrev FS : Type := List (String × FsEntry)

/-- `os.Stat`, in essence: the entry at a path, when one exists. -/
def FS.find : FS → String → Option FsEntry
  | [], _ => none
  | (k, v) :: rest, p => if k = p then some v else FS.find rest p

/-- Create or overwrite the entry at a path. -/
def FS.insert (fs : FS) (p : String) (e : FsEntry) : FS := (p, e) :: fs

/-! ### checkTargetDir (gardepro.go:176-189) -/

/-- Failures of `checkTargetDir`; the specification folds all of them
into `EnsureDirectory`'s single error `CreateFailed`. -/
inductive DirErr where
  | notDirectory
  | statFailed
  deriving DecidableEq, Repr

/-- `checkTargetDir`: stat the directory; an existing directory is
fine, an existing non-directory is an error, an absent path is created
with `os.Mkdir`. -/
def checkTargetDir (fs : FS) (dir : String) : Except DirErr FS :=
  match fs.find dir with
  | some .dir => .ok fs
  | some (.file _) => .error .notDirectory
  | none => .ok (fs.insert dir .dir)

/-! ### copySourceToTarget (gardepro.go:191-227) -/

/-- Outcome of one placement (the spec's `PlacementOutcome`, minus the
error cases, which travel through `Except`). -/
inductive Outcome where
  | created
  | skippedIdentical
  deriving DecidableEq, Repr

/-- Failures of `copySourceToTarget`.  `conflict` is the
"pre-existing file not identical" error — the spec's
`RejectedConflict`. -/
inductive PlaceErr where
  | compareFailed
  | conflict
  | copyFailed
  | statFailed
  deriving DecidableEq, Repr

/-- `copySourceToTarget`: stat the target; when it exists, byte-compare
it with the source and either skip (identical) or stop (conflict);
when it does not exist, copy the source there.  The final `Nat` counts
the writes performed (only `copyFile` writes). -/
def copySourceToTarget (fs : FS) (source target : String) :
    Except PlaceErr Outcome × FS × Nat :=
  match fs.find target with
  | some e =>
    match fs.find source, e with
    | some (.file sc), .file tc =>
      if sc = tc then (.ok .skippedIdentical, fs, 0)
      else (.error .conflict, fs, 0)
    | _, _ => (.error .compareFailed, fs, 0)
  | none =>
    match fs.find source with
    | some (.file sc) => (.ok .created, fs.insert target (.file sc), 1)
    | _ => (.error .copyFailed, fs, 0)

/-! ### The MP4 creation time (gardepro.go:147-151)

`time.Date(1904, 1, 1, 0, 0, 0, 0, UTC).Add(seconds).In(localTimeZone)`:
a count of seconds from the 1904-01-01T00:00:00 UTC epoch, shifted by
the local zone's offset and decomposed into proleptic-Gregorian
calendar fields.  The zone offset is an explicit parameter here (the
program reads it from ambient `localTimeZone`). -/

/-- Peel whole calendar years off a day count, starting at a given
year.  Fuel-driven; each step consumes at least 365 days, so fuel
`d + 1` always suffices. -/
def yearLoop : Nat → Nat → Nat → Nat × Nat
  | 0, y, d => (y, d)
  | f + 1, y, d =>
    if d < daysInYear y then (y, d) else yearLoop f (y + 1) (d - daysInYear y)

/-- Peel whole months off a day-of-year count; returns the 1-based
month and day. -/
def monthLoop : Nat → List Nat → Nat → Nat × Nat
  | m, [], d => (m, d + 1)
  | m, len :: rest, d =>
    if d < len then (m, d + 1) else monthLoop (m + 1) rest (d - len)

/-- Calendar date of a day count from 1904-01-01. -/
def civilFromDays1904 (days : Nat) : Nat × Nat × Nat :=
  let yd := yearLoop (days + 1) 1904 days
  let md := monthLoop 1 (monthLengths (isLeap yd.1)) yd.2
  (yd.1, md.1, md.2)

/-- The local wall-clock time the program computes for an MP4 file:
epoch 1904-01-01T00:00:00 UTC plus `offset` seconds
(`Mvhd.CreationTimeV0`), shifted into a zone `tz` seconds east of UTC.
Meaningful when the shifted instant is not before the epoch. -/
def videoWhen (offset : Nat) (tz : Int) : DateTime :=
  let total := (Int.ofNat offset + tz).toNat
  let days := total / 86400
  let rem := total % 86400
  let c := civilFromDays1904 days
  ⟨c.1, c.2.1, c.2.2, rem / 3600, rem % 3600 / 60, rem % 60⟩

/-! Specification-side characterisation of the same instant: a
calendar field tuple denotes the count of seconds since
1904-01-01T00:00:00 computed by direct summation.  The refinement
theorem for C5 states that `videoWhen` inverts this map. -/

/-- Days in `n` consecutive calendar years starting at year `y`. -/
def yearSpanDays (y : Nat) : Nat → Nat
  | 0 => 0
  | n + 1 => daysInYear y + yearSpanDays (y + 1) n

/-- Days in the months of a year strictly before 1-based month `m`. -/
def monthDaysBefore (leap : Bool) (m : Nat) : Nat :=
  ((monthLengths leap).take (m - 1)).sum

/-- Modelled from the spec: seconds between 1904-01-01T00:00:00 and a
calendar timestamp, by direct summation over years, months, days and
the time of day. -/
def civilToSeconds (t : DateTime) : Nat :=
  (yearSpanDays 1904 (t.year - 1904) + monthDaysBefore (isLeap t.year) t.month
      + (t.day - 1)) * 86400
    + t.hour * 3600 + t.minute * 60 + t.second

/-! ### EXIF timestamp parsing (gardepro.go:125)

`time.Parse("2006:01:02 15:04:05", whenStr)`: fixed-width numeric
fields with Go's range validation (month 1-12, day within the month,
24-hour clock).  No zone appears in the layout, so the result carries
the parsed wall-clock fields unchanged. -/

/-- Numeric value of a decimal digit character. -/
def digitVal (c : Char) : Nat := c.toNat - 48

/-- `time.Parse` with layout `"2006:01:02 15:04:05"`, as an `Option`. -/
def parseExifTime (s : String) : Option DateTime :=
  match s.data with
  | [y1, y2, y3, y4, ':', m1, m2, ':', d1, d2, ' ',
     h1, h2, ':', i1, i2, ':', s1, s2] =>
    if ([y1, y2, y3, y4, m1, m2, d1, d2, h1, h2, i1, i2, s1, s2]).all Char.isDigit
    then
      let t : DateTime :=
        ⟨digitVal y1 * 1000 + digitVal y2 * 100 + digitVal y3 * 10 + digitVal y4,
         digitVal m1 * 10 + digitVal m2,
         digitVal d1 * 10 + digitVal d2,
         digitVal h1 * 10 + digitVal h2,
         digitVal i1 * 10 + digitVal i2,
         digitVal s1 * 10 + digitVal s2⟩
      if 1 ≤ t.month ∧ t.month ≤ 12 ∧ 1 ≤ t.day ∧
          t.day ≤ (monthLengths (isLeap t.year)).getD (t.month - 1) 0 ∧
          t.hour ≤ 23 ∧ t.minute ≤ 59 ∧ t.second ≤ 59
      then some t else none
    else none
  | _ => none

/-! ### The main pipeline (gardepro.go:94-173)

Metadata extraction is performed by external libraries
(`go-exif`, `go-mp4`); their results enter the model as oracles in an
`Extraction` record, exactly at the points where `main` consumes them. -/

/-- The dynamic value returned by `EXIFgetValue` (an `interface{}`):
either a string or something else (the `whenValue.(string)` assertion
at gardepro.go:121 distinguishes the two). -/
inductive ExifValue where
  | str (s : String)
  | other
  deriving DecidableEq, Repr

/-- One box returned by `MP4getMetadata`: its payload either converts
to `*mp4.Mvhd` (carrying `CreationTimeV0`, seconds since 1904-01-01
UTC) or it does not (gardepro.go:142). -/
inductive MP4Box where
  | mvhd (creationTimeV0 : Nat)
  | other
  deriving DecidableEq, Repr

deriving instance DecidableEq for Except

/-- Results of the external metadata readers for one invocation. -/
structure Extraction where
  exifIndex : Except Unit Unit
  exifValue : Except Unit ExifValue
  mp4Boxes : Except Unit (List MP4Box)
  deriving DecidableEq, Repr

/-- The metadata-extraction failures (`errorFatal` sites in the two
extension branches); the spec folds them into `ExtractionFailure`. -/
inductive ExtractErr where
  | exifIndex
  | exifTag
  | exifNotString
  | exifParse
  | mp4Metadata
  | mp4Count (n : Nat)
  | mp4NotMvhd
  deriving DecidableEq, Repr

/-- Everything `errorFatal` can be reached with in `main`. -/
inductive AppErr where
  | extraction (e : ExtractErr)
  | unsupportedKind
  | noTargetDir
  | noTargetPath
  | directory (e : DirErr)
  | place (e : PlaceErr)
  deriving DecidableEq, Repr

/-- The file kinds the program recognises. -/
inductive MediaKind where
  | image
  | video
  deriving DecidableEq, Repr

/-- The extension dispatch of the `switch` at gardepro.go:112:
`strings.ToLower(filepath.Ext(source))` matched against
`".jpg", ".jpeg"` (image), `".mp4"` (video); anything else is
unrecognised. -/
def mediaKindOf (source : String) : Option MediaKind :=
  let ext := lowerStr (filepathExt source)
  if ext = ".jpg" ∨ ext = ".jpeg" then some .image
  else if ext = ".mp4" then some .video
  else none

/-- The extension switch (gardepro.go:112-157): compute
`(targetDir, targetPath)` or fail, consulting only the extraction
oracles — no filesystem state enters here. -/
def computePaths (source target : String) (ex : Extraction) (tz : Int) :
    Except AppErr (String × String) :=
  match mediaKindOf source with
  | some .image =>
    match ex.exifIndex with
    | .error _ => .error (.extraction .exifIndex)
    | .ok _ =>
      match ex.exifValue with
      | .error _ => .error (.extraction .exifTag)
      | .ok .other => .error (.extraction .exifNotString)
      | .ok (.str whenStr) =>
        match parseExifTime whenStr with
        | none => .error (.extraction .exifParse)
        | some when =>
          .ok (computeTargetDir target when,
               computeDestination target when (filepathBase source))
  | some .video =>
    match ex.mp4Boxes with
    | .error _ => .error (.extraction .mp4Metadata)
    | .ok [MP4Box.mvhd ctv0] =>
      let when := videoWhen ctv0 tz
      .ok (computeTargetDir target when,
           computeDestination target when (filepathBase source))
    | .ok [MP4Box.other] => .error (.extraction .mp4NotMvhd)
    | .ok boxes => .error (.extraction (.mp4Count boxes.length))
  | none => .error .unsupportedKind

/-- Destination path as a function of the raw `-target` flag: the
trailing-slash trim at gardepro.go:94 followed by the path
construction at gardepro.go:133. -/
def destinationFromFlag (targetRaw : String) (t : DateTime) (base : String) : String :=
  computeDestination (trimSuffix targetRaw "/") t base

/-- `main` after flag parsing and logger setup: trim the target root,
branch on the extension, then check the target directory and place the
file.  Returns the terminal result together with the final filesystem
state and the number of writes performed. -/
def runMain (source targetRaw : String) (ex : Extraction) (tz : Int) (fs : FS) :
    Except AppErr Outcome × FS × Nat :=
  let target := trimSuffix targetRaw "/"
  match computePaths source target ex tz with
  | .error e => (.error e, fs, 0)
  | .ok (targetDir, targetPath) =>
    if targetDir = "" then (.error .noTargetDir, fs, 0)
    else if targetPath = "" then (.error .noTargetPath, fs, 0)
    else
      match checkTargetDir fs targetDir with
      | .error e => (.error (.directory e), fs, 0)
      | .ok fs1 =>
        match copySourceToTarget fs1 source targetPath with
        | (.error e, fs2, w) => (.error (.place e), fs2, w)
        | (.ok oc, fs2, w) => (.ok oc, fs2, w)

/-! ## Helper lemmas -/

/-- Any fuel above the argument computes the same digit list. -/
theorem decDigitsGo_fuel (f f' n : Nat) (h : n < f) (h' : n < f') :
    decDigitsGo f n = decDigitsGo f' n := by
  induction f generalizing f' n with
  | zero => omega
  | succ g ih =>
    rcases f' with _ | g'
    · omega
    · rw [decDigitsGo, decDigitsGo]
      split
      · rfl
      · rename_i hn
        have hdivn : n / 10 < n := Nat.div_lt_self (by omega) (by omega)
        rw [ih g' (n / 10) (by omega) (by omega)]

theorem decDigits_length_le (n k : Nat) (h : n < 10 ^ (k + 1)) :
    (decDigits n).length ≤ k + 1 := by
  induction n using Nat.strong_induction_on generalizing k with
  | _ n ih =>
    rw [decDigits, decDigitsGo]
    split
    · simp
    · rename_i hn
      rcases k with _ | k'
      · omega
      · have hdiv : n / 10 < 10 ^ (k' + 1) := by
          have : (10 : Nat) ^ (k' + 2) = 10 ^ (k' + 1) * 10 := by ring
          rw [this] at h
          omega
        have hdivn : n / 10 < n := Nat.div_lt_self (by omega) (by omega)
        have hfuel : decDigitsGo n (n / 10) = decDigits (n / 10) := by
          rw [decDigits]
          exact decDigitsGo_fuel n (n / 10 + 1) (n / 10) (by omega) (by omega)
        rw [hfuel]
        have := ih (n / 10) hdivn k' hdiv
        simp only [List.length_append, List.length_cons, List.length_nil]
        omega

theorem padNat_length (w n : Nat) (hw : 0 < w) (h : n < 10 ^ w) :
    (padNat w n).length = w := by
  rcases w with _ | w'
  · omega
  · have h1 := decDigits_length_le n w' h
    simp [padNat, String.length]
    omega

/-- `when.Format("/2006")` unfolded. -/
theorem goFormat_targetDir (t : DateTime) :
    goFormat targetDirFmt t = "/" ++ padNat 4 t.year := by
  apply String.ext
  simp [goFormat, targetDirFmt, goFormatAux, String.data_append]

/-- `when.Format("/2006/01-02-15:04:05-")` unfolded. -/
theorem goFormat_stub (t : DateTime) :
    goFormat fileDateStubFmt t =
      "/" ++ padNat 4 t.year ++ "/" ++ padNat 2 t.month ++ "-" ++ padNat 2 t.day ++ "-" ++
        padNat 2 t.hour ++ ":" ++ padNat 2 t.minute ++ ":" ++ padNat 2 t.second ++ "-" := by
  apply String.ext
  simp [goFormat, fileDateStubFmt, goFormatAux, String.data_append]

theorem daysInYear_ge (y : Nat) : 365 ≤ daysInYear y := by
  unfold daysInYear; split <;> omega

theorem monthLengths_sum (leap : Bool) :
    (monthLengths leap).sum = if leap then 366 else 365 := by
  cases leap <;> decide

theorem daysInYear_eq_sum (y : Nat) : daysInYear y = (monthLengths (isLeap y)).sum := by
  rw [monthLengths_sum, daysInYear]

/-- Invariant of the month-peeling loop: over any month-length table,
the days before the returned month plus the returned (1-based) day
reassemble the input day-of-year. -/
theorem monthLoop_inv (ls : List Nat) (m d : Nat) (h : d < ls.sum) :
    (ls.take ((monthLoop m ls d).1 - m)).sum + ((monthLoop m ls d).2 - 1) = d
    ∧ 1 ≤ (monthLoop m ls d).2 ∧ m ≤ (monthLoop m ls d).1 := by
  induction ls generalizing m d with
  | nil => simp at h
  | cons len rest ih =>
    rw [monthLoop]
    split
    · simp
    · rename_i hlen
      simp only [List.sum_cons] at h
      have hrest : d - len < rest.sum := by omega
      obtain ⟨h1, h2, h3⟩ := ih (m + 1) (d - len) hrest
      refine ⟨?_, h2, by omega⟩
      have hk : (monthLoop (m + 1) rest (d - len)).1 - m
          = ((monthLoop (m + 1) rest (d - len)).1 - (m + 1)) + 1 := by omega
      rw [hk, List.take_succ_cons, List.sum_cons]
      omega

/-- Invariant of the year-peeling loop: with enough fuel, the days in
the skipped years plus the residue reassemble the input day count, and
the residue lies inside the returned year. -/
theorem yearLoop_inv (f y d : Nat) (h : d < 365 * f) :
    ∃ n, (yearLoop f y d).1 = y + n ∧ yearSpanDays y n + (yearLoop f y d).2 = d
      ∧ (yearLoop f y d).2 < daysInYear (yearLoop f y d).1 := by
  induction f generalizing y d with
  | zero => omega
  | succ f' ih =>
    rw [yearLoop]
    split
    · exact ⟨0, by simp [yearSpanDays], by simp [yearSpanDays], by simpa⟩
    · rename_i hd
      have hge := daysInYear_ge y
      obtain ⟨n, h1, h2, h3⟩ := ih (y + 1) (d - daysInYear y) (by omega)
      exact ⟨n + 1, by omega, by simp [yearSpanDays]; omega, h3⟩

/-- Round trip: the calendar fields the program computes for an MP4
creation time denote (by direct summation) exactly the seconds count
it started from. -/
theorem civilToSeconds_videoWhen (offset : Nat) (tz : Int) :
    civilToSeconds (videoWhen offset tz) = (Int.ofNat offset + tz).toNat := by
  set total := (Int.ofNat offset + tz).toNat with htotal
  have hdays : total / 86400 < 365 * (total / 86400 + 1) := by omega
  obtain ⟨n, hy, hspan, hlt⟩ := yearLoop_inv (total / 86400 + 1) 1904 (total / 86400) hdays
  set yd := yearLoop (total / 86400 + 1) 1904 (total / 86400) with hyd
  have hmsum : yd.2 < (monthLengths (isLeap yd.1)).sum := by
    rw [← daysInYear_eq_sum]; exact hlt
  obtain ⟨hmonth, hdd, hm1⟩ := monthLoop_inv (monthLengths (isLeap yd.1)) 1 yd.2 hmsum
  set md := monthLoop 1 (monthLengths (isLeap yd.1)) yd.2 with hmd
  simp only [videoWhen, civilFromDays1904, civilToSeconds, ← htotal, ← hyd, ← hmd,
    monthDaysBefore]
  have hy1904 : yd.1 - 1904 = n := by omega
  rw [hy1904]
  omega

/-- Looking up the just-inserted path. -/
theorem FS.find_insert_self (fs : FS) (p : String) (e : FsEntry) :
    (fs.insert p e).find p = some e := by
  simp [FS.insert, FS.find]

/-- Looking up a different path sees through an insert. -/
theorem FS.find_insert_ne (fs : FS) (p q : String) (e : FsEntry) (h : p ≠ q) :
    (fs.insert p e).find q = fs.find q := by
  simp [FS.insert, FS.find, h]

/-- `strings.TrimSuffix(r + "/", "/")` gives back `r`. -/
theorem trimSuffix_append_slash (r : String) :
    trimSuffix (r ++ "/") "/" = r := by
  have hdata : (r ++ "/").data = r.data ++ ['/'] := String.data_append r "/"
  have hsuf : hasSuffix (r ++ "/") "/" = true := by
    simp [hasSuffix, hdata, List.drop_left]
  rw [trimSuffix, if_pos hsuf, hdata]
  simp only [List.length_append, List.length_cons, List.length_nil]
  have : r.data.length + 1 - 1 = r.data.length := by omega
  rw [this, List.take_left]

/-- `strings.TrimSuffix` leaves a string without the suffix alone. -/
theorem trimSuffix_of_not_hasSuffix (s suf : String) (h : hasSuffix s suf = false) :
    trimSuffix s suf = s := by
  rw [trimSuffix, if_neg]
  simp [h]

/-! ## Claims -/

/-- C1: for every non-empty target root, valid calendar timestamp and
source basename, the destination path is
`<root>/<year>/<month>-<day>-<hour>:<minute>:<second>-<basename>`,
with the year rendered as a 4-digit subdirectory and the original
basename (extension included) preserved at the end. -/
theorem C1_destination_path_format (root : String) (t : DateTime) (base : String)
    (hroot : root ≠ "") (hv : ValidTime t) :
    computeDestination root t base =
      root ++ "/" ++ padNat 4 t.year ++ "/" ++ padNat 2 t.month ++ "-" ++ padNat 2 t.day
        ++ "-" ++ padNat 2 t.hour ++ ":" ++ padNat 2 t.minute ++ ":" ++ padNat 2 t.second
        ++ "-" ++ base
    ∧ (padNat 4 t.year).length = 4 := by
  obtain ⟨hy, -⟩ := hv
  constructor
  · rw [computeDestination, goFormat_stub]
    apply String.ext
    simp [String.data_append]
  · have h4 : (10 : Nat) ^ 4 = 10000 := by norm_num
    exact padNat_length 4 t.year (by omega) (by omega)

/-- C1 witness: the spec's example — timestamp `2023:06:15 14:30:05`,
basename `IMG_001.JPG`, root `/archive` yield
`/archive/2023/06-15-14:30:05-IMG_001.JPG`. -/
theorem C1_witness :
    computeDestination "/archive" ⟨2023, 6, 15, 14, 30, 5⟩ "IMG_001.JPG" =
      "/archive/2023/06-15-14:30:05-IMG_001.JPG" :=
  ((C1_destination_path_format "/archive" ⟨2023, 6, 15, 14, 30, 5⟩ "IMG_001.JPG"
      (by decide) (by decide)).1).trans (by decide)

/-- C2: when the destination exists with content differing
byte-for-byte from the source, placement reports the conflict error
("pre-existing file not identical"), performs no write, and leaves the
destination's content untouched. -/
theorem C2_conflict_rejected_no_write (fs : FS) (source target : String) (sc tc : List Nat)
    (hs : fs.find source = some (.file sc))
    (ht : fs.find target = some (.file tc))
    (hne : tc ≠ sc) :
    copySourceToTarget fs source target = (.error .conflict, fs, 0)
    ∧ (copySourceToTarget fs source target).2.1.find target = some (.file tc) := by
  have hne' : ¬ (sc = tc) := fun h => hne h.symm
  have h1 : copySourceToTarget fs source target = (.error .conflict, fs, 0) := by
    simp [copySourceToTarget, ht, hs, hne']
  exact ⟨h1, by rw [h1]; exact ht⟩

/-- C2 witness: distinct one-byte files at source and destination. -/
theorem C2_witness :
    copySourceToTarget [("s", FsEntry.file [1]), ("t", FsEntry.file [2])] "s" "t"
      = (.error .conflict, [("s", FsEntry.file [1]), ("t", FsEntry.file [2])], 0)
    ∧ (copySourceToTarget [("s", FsEntry.file [1]), ("t", FsEntry.file [2])] "s" "t").2.1.find "t"
      = some (.file [2]) :=
  C2_conflict_rejected_no_write [("s", FsEntry.file [1]), ("t", FsEntry.file [2])] "s" "t"
    [1] [2] (by decide) (by decide) (by decide)

/-- C3: placing the same source twice against an initially absent
destination yields `Created` (one write) then `SkippedIdentical` (no
write), with the filesystem unchanged by the second run. -/
theorem C3_place_idempotent (fs : FS) (source target : String) (sc : List Nat)
    (hs : fs.find source = some (.file sc))
    (ht : fs.find target = none) :
    copySourceToTarget fs source target = (.ok .created, fs.insert target (.file sc), 1)
    ∧ copySourceToTarget (fs.insert target (.file sc)) source target
        = (.ok .skippedIdentical, fs.insert target (.file sc), 0) := by
  have hne : target ≠ source := by
    intro h
    rw [h] at ht
    rw [ht] at hs
    exact Option.noConfusion hs
  constructor
  · simp [copySourceToTarget, ht, hs]
  · have h1 : (fs.insert target (.file sc)).find target = some (.file sc) :=
      FS.find_insert_self fs target (.file sc)
    have h2 : (fs.insert target (.file sc)).find source = some (.file sc) := by
      rw [FS.find_insert_ne fs target source (.file sc) hne]
      exact hs
    simp [copySourceToTarget, h1, h2]

/-- C3 witness: a one-byte source placed twice. -/
theorem C3_witness :
    copySourceToTarget [("s", FsEntry.file [7])] "s" "t"
      = (.ok .created, [("t", FsEntry.file [7]), ("s", FsEntry.file [7])], 1)
    ∧ copySourceToTarget [("t", FsEntry.file [7]), ("s", FsEntry.file [7])] "s" "t"
      = (.ok .skippedIdentical, [("t", FsEntry.file [7]), ("s", FsEntry.file [7])], 0) :=
  C3_place_idempotent [("s", FsEntry.file [7])] "s" "t" [7] (by decide) (by decide)

/-- C4: `ComputeDestination` is a pure function of the
(root, timestamp, basename) triple — two invocations with the same
triple produce identical paths; in this embedding the function takes
nothing but the triple, so no hidden state can enter. -/
theorem C4_computeDestination_deterministic (r r' : String) (t t' : DateTime) (b b' : String)
    (h1 : r = r') (h2 : t = t') (h3 : b = b') :
    computeDestination r t b = computeDestination r' t' b' := by
  rw [h1, h2, h3]

/-- C4 witness: two invocations on the spec's example triple. -/
theorem C4_witness :
    computeDestination "/archive" ⟨2023, 6, 15, 14, 30, 5⟩ "IMG_001.JPG"
      = computeDestination "/archive" ⟨2023, 6, 15, 14, 30, 5⟩ "IMG_001.JPG" :=
  C4_computeDestination_deterministic "/archive" "/archive" ⟨2023, 6, 15, 14, 30, 5⟩
    ⟨2023, 6, 15, 14, 30, 5⟩ "IMG_001.JPG" "IMG_001.JPG" rfl rfl rfl

/-- C5: the extracted video timestamp is exactly the fixed epoch
1904-01-01T00:00:00 UTC plus the container's seconds offset, shifted
into the local zone: summing its calendar fields back to seconds
(an independent, spec-side computation) recovers `offset + tz`; and
the year subdirectory of the destination is that local date's year. -/
theorem C5_video_timestamp_epoch1904 (offset : Nat) (tz : Int) (root : String)
    (h : 0 ≤ Int.ofNat offset + tz) :
    Int.ofNat (civilToSeconds (videoWhen offset tz)) = Int.ofNat offset + tz
    ∧ computeTargetDir root (videoWhen offset tz)
        = root ++ "/" ++ padNat 4 (videoWhen offset tz).year := by
  constructor
  · rw [civilToSeconds_videoWhen]
    exact_mod_cast Int.toNat_of_nonneg h
  · rw [computeTargetDir, goFormat_targetDir]
    apply String.ext
    simp [String.data_append]

/-- C5 witness: the spec's example offset `3786912345` — in UTC it is
2024-01-01T00:05:45; in a zone 8 hours west it is 2023-12-31T16:05:45,
so the year subdirectory is `/2023`. -/
theorem C5_witness :
    (0 : Int) ≤ Int.ofNat 3786912345 + (-28800)
    ∧ Int.ofNat (civilToSeconds (videoWhen 3786912345 (-28800)))
        = Int.ofNat 3786912345 + (-28800)
    ∧ videoWhen 3786912345 (-28800) = ⟨2023, 12, 31, 16, 5, 45⟩
    ∧ computeTargetDir "/archive" (videoWhen 3786912345 (-28800)) = "/archive/2023"
    ∧ videoWhen 3786912345 0 = ⟨2024, 1, 1, 0, 5, 45⟩ :=
  ⟨by decide,
   (C5_video_timestamp_epoch1904 3786912345 (-28800) "/archive" (by decide)).1,
   by decide,
   ((C5_video_timestamp_epoch1904 3786912345 (-28800) "/archive" (by decide)).2).trans
     (by decide),
   by decide⟩

/-- C6: when the source's metadata lacks the required creation-time
record — for an image the EXIF Date/Time tag, for a video the single
`mvhd` box — the run fails with an extraction error and the filesystem
is returned unchanged with zero writes: no destination directory or
file is created. -/
theorem C6_extraction_failure_aborts (source targetRaw : String) (ex : Extraction)
    (tz : Int) (fs : FS) :
    (mediaKindOf source = some .image → ex.exifIndex = .ok () → ex.exifValue = .error () →
      runMain source targetRaw ex tz fs = (.error (.extraction .exifTag), fs, 0))
    ∧ (mediaKindOf source = some .video → ex.mp4Boxes = .ok [] →
      runMain source targetRaw ex tz fs = (.error (.extraction (.mp4Count 0)), fs, 0)) := by
  constructor
  · intro hk hi hv
    simp [runMain, computePaths, hk, hi, hv]
  · intro hk hb
    simp [runMain, computePaths, hk, hb]

/-- C6 witness: a `.jpg` whose Date/Time tag lookup fails, and a
`.mp4` with no `mvhd` box, both on an empty filesystem. -/
theorem C6_witness :
    runMain "a.jpg" "/t" ⟨.ok (), .error (), .ok []⟩ 0 []
      = (.error (.extraction .exifTag), [], 0)
    ∧ runMain "b.mp4" "/t" ⟨.ok (), .ok (.str ""), .ok []⟩ 0 []
      = (.error (.extraction (.mp4Count 0)), [], 0) :=
  ⟨(C6_extraction_failure_aborts "a.jpg" "/t" ⟨.ok (), .error (), .ok []⟩ 0 []).1
     (by decide) rfl rfl,
   (C6_extraction_failure_aborts "b.mp4" "/t" ⟨.ok (), .ok (.str ""), .ok []⟩ 0 []).2
     (by decide) rfl⟩

/-- C7: an unrecognised (lower-cased) extension fails with the
unsupported-kind error before anything else happens: the filesystem is
returned unchanged with zero writes, and the result does not depend on
the extraction oracles at all. -/
theorem C7_unsupported_extension (source targetRaw : String) (ex ex' : Extraction)
    (tz tz' : Int) (fs : FS)
    (h : mediaKindOf source = none) :
    runMain source targetRaw ex tz fs = (.error .unsupportedKind, fs, 0)
    ∧ runMain source targetRaw ex tz fs = runMain source targetRaw ex' tz' fs := by
  have h1 : ∀ (e : Extraction) (z : Int),
      runMain source targetRaw e z fs = (.error .unsupportedKind, fs, 0) := by
    intro e z
    simp [runMain, computePaths, h]
  exact ⟨h1 ex tz, (h1 ex tz).trans (h1 ex' tz').symm⟩

/-- C7 witness: the spec's `.png` example, against two different
oracle assignments. -/
theorem C7_witness :
    mediaKindOf "IMG_001.png" = none
    ∧ runMain "IMG_001.png" "/archive" ⟨.ok (), .ok (.str ""), .ok []⟩ 0 []
        = (.error .unsupportedKind, [], 0)
    ∧ runMain "IMG_001.png" "/archive" ⟨.ok (), .ok (.str ""), .ok []⟩ 0 []
        = runMain "IMG_001.png" "/archive" ⟨.error (), .error (), .error ()⟩ 99 [] :=
  ⟨by decide,
   (C7_unsupported_extension "IMG_001.png" "/archive" ⟨.ok (), .ok (.str ""), .ok []⟩
      ⟨.error (), .error (), .error ()⟩ 0 99 [] (by decide)).1,
   (C7_unsupported_extension "IMG_001.png" "/archive" ⟨.ok (), .ok (.str ""), .ok []⟩
      ⟨.error (), .error (), .error ()⟩ 0 99 [] (by decide)).2⟩

/-- C8: `checkTargetDir` (the spec's `EnsureDirectory`) creates the
directory and succeeds when the path is absent; fails — with the
"target dir is not a directory" error, the realisation of the spec's
`CreateFailed` — when a non-directory entry occupies the path; and
succeeds without any change when a directory is already there. -/
theorem C8_ensureDirectory (fs : FS) (dir : String) :
    (fs.find dir = none →
      checkTargetDir fs dir = .ok (fs.insert dir .dir)
      ∧ (fs.insert dir .dir).find dir = some .dir)
    ∧ (∀ c, fs.find dir = some (.file c) → checkTargetDir fs dir = .error .notDirectory)
    ∧ (fs.find dir = some .dir → checkTargetDir fs dir = .ok fs) := by
  refine ⟨?_, ?_, ?_⟩
  · intro h
    exact ⟨by simp [checkTargetDir, h], FS.find_insert_self fs dir .dir⟩
  · intro c h
    simp [checkTargetDir, h]
  · intro h
    simp [checkTargetDir, h]

/-- C8 witness: the three cases at a concrete path. -/
theorem C8_witness :
    (checkTargetDir [] "/archive/2023" = .ok [("/archive/2023", FsEntry.dir)]
      ∧ FS.find [("/archive/2023", FsEntry.dir)] "/archive/2023" = some .dir)
    ∧ checkTargetDir [("/archive/2023", FsEntry.file [1])] "/archive/2023"
        = .error .notDirectory
    ∧ checkTargetDir [("/archive/2023", FsEntry.dir)] "/archive/2023"
        = .ok [("/archive/2023", FsEntry.dir)] :=
  ⟨(C8_ensureDirectory [] "/archive/2023").1 rfl,
   (C8_ensureDirectory [("/archive/2023", FsEntry.file [1])] "/archive/2023").2.1 [1] rfl,
   (C8_ensureDirectory [("/archive/2023", FsEntry.dir)] "/archive/2023").2.2 rfl⟩

/-- C9: kind detection is case-insensitive on the extension — the kind
depends only on the lower-cased extension, `.jpg`/`.jpeg` in any case
mixture is image, `.mp4` in any case mixture is video, and everything
else is unrecognised. -/
theorem C9_kind_case_insensitive (p q : String) :
    (lowerStr (filepathExt p) = lowerStr (filepathExt q) → mediaKindOf p = mediaKindOf q)
    ∧ (mediaKindOf p = some .image ↔
        (lowerStr (filepathExt p) = ".jpg" ∨ lowerStr (filepathExt p) = ".jpeg"))
    ∧ (mediaKindOf p = some .video ↔ lowerStr (filepathExt p) = ".mp4")
    ∧ (mediaKindOf p = none ↔
        ¬(lowerStr (filepathExt p) = ".jpg" ∨ lowerStr (filepathExt p) = ".jpeg"
          ∨ lowerStr (filepathExt p) = ".mp4")) := by
  refine ⟨?_, ?_, ?_, ?_⟩
  · intro h
    simp only [mediaKindOf]
    rw [h]
  all_goals
    simp only [mediaKindOf]
    by_cases h1 : lowerStr (filepathExt p) = ".jpg"
    · rw [h1]; decide
    · by_cases h2 : lowerStr (filepathExt p) = ".jpeg"
      · rw [h2]; decide
      · by_cases h3 : lowerStr (filepathExt p) = ".mp4"
        · rw [h3]; decide
        · simp [h1, h2, h3]

/-- C9 witness: mixed-case extensions classified concretely. -/
theorem C9_witness :
    lowerStr (filepathExt "a.JpG") = lowerStr (filepathExt "b.jpg")
    ∧ mediaKindOf "a.JpG" = mediaKindOf "b.jpg"
    ∧ mediaKindOf "a.JpG" = some .image
    ∧ mediaKindOf "c.JPEG" = some .image
    ∧ mediaKindOf "d.MP4" = some .video
    ∧ mediaKindOf "e.png" = none :=
  ⟨by decide,
   (C9_kind_case_insensitive "a.JpG" "b.jpg").1 (by decide),
   (C9_kind_case_insensitive "a.JpG" "b.jpg").2.1.mpr (by decide),
   (C9_kind_case_insensitive "c.JPEG" "x").2.1.mpr (by decide),
   (C9_kind_case_insensitive "d.MP4" "x").2.2.1.mpr (by decide),
   (C9_kind_case_insensitive "e.png" "x").2.2.2.mpr (by decide)⟩

/-- C10 counterexample: the claim fails when the root itself ends in
'/': `strings.TrimSuffix` removes only one trailing slash, so for
`r = "/archive/"` the destination computed from `r + "/"` (that is,
`/archive//`) keeps a double slash while the one computed from `r`
does not. -/
theorem C10_counterexample :
    destinationFromFlag ("/archive/" ++ "/") ⟨2023, 6, 15, 14, 30, 5⟩ "IMG_001.JPG"
      ≠ destinationFromFlag "/archive/" ⟨2023, 6, 15, 14, 30, 5⟩ "IMG_001.JPG" := by
  decide

/-- C10 (amended): a single trailing '/' on the target root is trimmed
before path construction, so for every root that does not itself end
in '/', and every timestamp and basename, the destination computed
from root `r + "/"` equals the one computed from root `r`. -/
theorem C10_trailing_slash_trimmed (r : String) (t : DateTime) (b : String)
    (h : hasSuffix r "/" = false) :
    destinationFromFlag (r ++ "/") t b = destinationFromFlag r t b := by
  rw [destinationFromFlag, destinationFromFlag, trimSuffix_append_slash,
    trimSuffix_of_not_hasSuffix r "/" h]

/-- C10 witness: `/archive/` versus `/archive` on the spec's example
timestamp and basename. -/
theorem C10_witness :
    hasSuffix "/archive" "/" = false
    ∧ destinationFromFlag ("/archive" ++ "/") ⟨2023, 6, 15, 14, 30, 5⟩ "IMG_001.JPG"
      = destinationFromFlag "/archive" ⟨2023, 6, 15, 14, 30, 5⟩ "IMG_001.JPG" :=
  ⟨by decide,
   C10_trailing_slash_trimmed "/archive" ⟨2023, 6, 15, 14, 30, 5⟩ "IMG_001.JPG" (by decide)⟩

end GardePro
